import Mathlib

/-!
# Verification of the amdxdna mailbox transport

A shallow embedding of `src/driver/amdxdna/amdxdna_mailbox.c` (the mailbox
transport between the host driver and the NPU device), together with proofs
of the specification claims about it.

Modelling conventions:
* 32-bit machine integers become `Nat` with explicit `% 2^32` where the C
  arithmetic can wrap (`add32`, `sub32`).
* The ring buffers are write/read event logs: a ring write records the byte
  offset and the list of 32-bit words stored there (all transfers in the
  driver are 4-byte aligned).  The inbound (I2X) ring content is an
  environment function from byte offset to the 32-bit word at that offset.
* The Linux `idr` used for the pending map becomes an association list of
  `(key, record)` pairs plus the cyclic-allocation cursor (`idr_next`),
  mirroring `idr_alloc_cyclic` / `idr_find` / `idr_remove`.
* `kzalloc` for the send-side record is modelled as succeeding (the `-ENOMEM`
  path is outside every claim); the allocation of an async record in
  `mailbox_get_async_msg` can fail and is an explicit boolean oracle.
* Callback invocations, frees, warnings and async-queue operations are
  emitted as events so that "invoked exactly once" style claims are about
  event counts.
-/

/-- Constant `ASYNC_MSG_START_ID` from the source. -/
def ASYNC_MSG_START_ID : Nat := 0x80000000

/-- Constant `MAGIC_VAL` from the source. -/
def MAGIC_VAL : Nat := 0x1D000000

/-- Constant `MAGIC_VAL_MASK` from the source. -/
def MAGIC_VAL_MASK : Nat := 0xFF000000

/-- Constant `MAX_MSG_ID_ENTRIES` from the source. -/
def MAX_MSG_ID_ENTRIES : Nat := 256

/-- Constant `MSG_PROTOCOL_VERSION` from the source. -/
def MSG_PROTOCOL_VERSION : Nat := 0x1

/-- Constant `TOMBSTONE` from the source. -/
def TOMBSTONE : Nat := 0xDEADFACE

/-- The errno values the mailbox code returns (positive magnitudes). -/
def ENOENT : Int := 2
def ENOMEM : Int := 12
def EINVAL : Int := 22
def ENOSPC : Int := 28

/-- The value 2^32, the modulus of `u32` arithmetic. -/
def U32 : Nat := 2 ^ 32

/-- Addition of `u32` values. -/
def add32 (a b : Nat) : Nat := (a + b) % U32

/-- Subtraction of `u32` values (operands are values `< 2^32`). -/
def sub32 (a b : Nat) : Nat := (a + U32 - b) % U32

/-- The `struct xdna_msg_header` (16 bytes, packed).  The bitfield widths of the
second word (`size : 11`, `rsvd0 : 5`, `protocol_version : 8`, `rsvd1 : 8`)
are enforced at assignment, as C bitfield stores do. -/
structure XdnaMsgHeader where
  total_size : Nat
  size : Nat
  rsvd0 : Nat
  protocol_version : Nat
  rsvd1 : Nat
  id : Nat
  opcode : Nat
deriving Repr, DecidableEq

/-- The four 32-bit words of a header as laid out on the wire. -/
def headerWords (h : XdnaMsgHeader) : List Nat :=
  [h.total_size % U32,
   h.size % 2 ^ 11 + h.rsvd0 % 2 ^ 5 * 2 ^ 11 + h.protocol_version % 2 ^ 8 * 2 ^ 16 +
     h.rsvd1 % 2 ^ 8 * 2 ^ 24,
   h.id % U32,
   h.opcode % U32]

/-- The `struct mailbox_msg`: the pending record.  `hasCb` models whether
`notify_cb` is non-null; `payload` is the payload in 32-bit words. -/
structure MailboxMsg where
  handle : Nat
  hasCb : Bool
  pkgSize : Nat
  header : XdnaMsgHeader
  payload : List Nat
deriving Repr, DecidableEq

/-- The packaged bytes (`mb_msg->pkg`): header followed by payload words. -/
def pkgWords (m : MailboxMsg) : List Nat := headerWords m.header ++ m.payload

/-- A well-formed record's `pkg_size` counts the 16 header bytes plus the
payload bytes, as built by `xdna_mailbox_send_msg`. -/
def MailboxMsg.wf (m : MailboxMsg) : Prop := m.pkgSize = 16 + 4 * m.payload.length

/-- The channel's `struct idr chan_idr`: association list of
`(low 24-bit key, record)` plus the cyclic cursor `idr_next`. -/
structure Idr where
  entries : List (Nat × MailboxMsg)
  next : Nat
deriving Repr, DecidableEq

/-- Embedding of `idr_find`. -/
def idrFind (idr : Idr) (k : Nat) : Option MailboxMsg :=
  (idr.entries.find? (fun e => e.1 == k)).map Prod.snd

/-- The key `idr_alloc_cyclic(&idr, _, 0, MAX_MSG_ID_ENTRIES, _)` would
allocate: the first free key scanning from the cursor through
`[cursor, 256)` and then wrapping to `[0, cursor)`; `none` when all 256 keys
are in use. -/
def idrFindFree (idr : Idr) : Option Nat :=
  ((List.range MAX_MSG_ID_ENTRIES).map
      (fun i => (idr.next + i) % MAX_MSG_ID_ENTRIES)).find?
    (fun k => (idrFind idr k).isNone)

/-- Embedding of `idr_alloc_cyclic` storing record `m`: returns the key and the idr with
the entry added and the cursor advanced past the allocated key. -/
def idrAllocCyclic (idr : Idr) (m : MailboxMsg) : Option (Nat × Idr) :=
  match idrFindFree idr with
  | none => none
  | some k => some (k, ⟨(k, m) :: idr.entries, k + 1⟩)

/-- Embedding of `idr_remove`. -/
def idrRemove (idr : Idr) (k : Nat) : Idr :=
  { idr with entries := idr.entries.filter (fun e => !(e.1 == k)) }

/-- Embedding of `mailbox_validate_msgid`. -/
def mailbox_validate_msgid (msg_id : Nat) : Bool :=
  msg_id &&& MAGIC_VAL_MASK == MAGIC_VAL

/-- Embedding of `mailbox_acquire_msgid`: allocate a key for `m` cyclically and OR the
magic value into the returned ID. -/
def mailbox_acquire_msgid (idr : Idr) (m : MailboxMsg) : Option (Nat × Idr) :=
  match idrAllocCyclic idr m with
  | none => none
  | some (k, idr') => some (k ||| MAGIC_VAL, idr')

/-- Embedding of `mailbox_release_msgid`: mask off the magic bits and remove the key. -/
def mailbox_release_msgid (idr : Idr) (msg_id : Nat) : Idr :=
  idrRemove idr (msg_id &&& 0xFFFFFF)

/-- One write into the X2I ring: `words` stored from byte offset `off`. -/
structure RingWrite where
  off : Nat
  words : List Nat
deriving Repr, DecidableEq

/-- Result of `mailbox_send_msg` (the X2I ring-write step): return value, the
cached `x2i_tail` afterwards, the writes to the X2I tail register, and the
ring writes performed. -/
structure InnerSendOut where
  ret : Int
  tail : Nat
  tailRegWrites : List Nat
  ringWrites : List RingWrite
deriving Repr, DecidableEq

/-- Embedding of `mailbox_send_msg`: write the packaged message into the X2I ring.
`N` is the X2I ring size, `head` the freshly read X2I head register, `tail`
the cached `x2i_tail`. -/
def mailbox_send_msg (N head tail : Nat) (msg : MailboxMsg) : InnerSendOut :=
  let tmp_tail := add32 tail msg.pkgSize
  if tail < head ∧ head ≤ tmp_tail then
    ⟨-ENOSPC, tail, [], []⟩
  else if head ≤ tail ∧ (sub32 N 4 < tmp_tail ∧ head ≤ msg.pkgSize) then
    ⟨-ENOSPC, tail, [], []⟩
  else
    let tombs : List RingWrite :=
      if head ≤ tail ∧ sub32 N 4 < tmp_tail then [⟨tail, [TOMBSTONE]⟩] else []
    let tail' : Nat := if head ≤ tail ∧ sub32 N 4 < tmp_tail then 0 else tail
    let newTail := add32 tail' msg.pkgSize
    ⟨0, newTail, [newTail], tombs ++ [⟨tail', pkgWords msg⟩]⟩

example :
    mailbox_send_msg 64 40 48
      ⟨0, false, 32, ⟨16, 16, 0, 1, 0, 5, 7⟩, [1, 2, 3, 4]⟩ =
      ⟨0, 32, [32], [⟨48, [TOMBSTONE]⟩, ⟨0, [16, 16 + 2 ^ 16, 5, 7, 1, 2, 3, 4]⟩]⟩ := by
  decide

/-- The `struct xdna_mailbox_msg`, the caller-visible message (fields as used by
`xdna_mailbox_send_msg`: `opcode`, `send_data`, `send_size`, `handle`,
`notify_cb`).  `sendData` is the caller's buffer in 32-bit words; `hasCb`
models whether `notify_cb` is non-null. -/
structure XdnaMailboxMsg where
  opcode : Nat
  sendData : List Nat
  sendSize : Nat
  handle : Nat
  hasCb : Bool
deriving Repr, DecidableEq

/-- Result of `xdna_mailbox_send_msg`: return value, cached tail, register
writes, ring writes, the pending map afterwards, the IDs issued during the
call, and how many times the prepared record was `kfree`d. -/
structure SendOut where
  ret : Int
  tail : Nat
  tailRegWrites : List Nat
  ringWrites : List RingWrite
  idr : Idr
  allocatedIds : List Nat
  freedRecords : Nat
deriving Repr, DecidableEq

/-- The pending record `xdna_mailbox_send_msg` builds for message `msg`
once key `k` has been allocated: header (`total_size`, the 11-bit `size`,
protocol version 1, the magic-decorated id, the opcode) followed by the
copied payload. -/
def mailboxPkg (msg : XdnaMailboxMsg) (k : Nat) : MailboxMsg :=
  { handle := msg.handle
    hasCb := msg.hasCb
    pkgSize := 16 + msg.sendSize
    header :=
      { total_size := msg.sendSize % U32
        size := msg.sendSize % 2 ^ 11
        rsvd0 := 0
        protocol_version := MSG_PROTOCOL_VERSION
        rsvd1 := 0
        id := k ||| MAGIC_VAL
        opcode := msg.opcode % U32 }
    payload := msg.sendData.take (msg.sendSize / 4) }

/-- Embedding of `xdna_mailbox_send_msg`: validate, package, allocate an ID, write into
the ring; on ring failure release the ID and free the record.
`N` is the X2I ring size, `head` the X2I head register value at the time of
the ring write, `tail` the cached `x2i_tail`, `idr` the pending map.

In the C code `mailbox_acquire_msgid` stores the record pointer in the idr
and `header->id` is assigned through that pointer afterwards, so the map
ends up holding the record with the final id; the model inserts the
finished record directly. -/
def xdna_mailbox_send_msg (N head tail : Nat) (idr : Idr) (msg : XdnaMailboxMsg) :
    SendOut :=
  let pkg_size := 16 + msg.sendSize
  if N < pkg_size then
    ⟨-EINVAL, tail, [], [], idr, [], 0⟩
  else if ¬ msg.sendSize % 4 = 0 then
    ⟨-EINVAL, tail, [], [], idr, [], 0⟩
  else if msg.sendData.headD 0 = TOMBSTONE then
    ⟨-EINVAL, tail, [], [], idr, [], 0⟩
  else
    match idrFindFree idr with
    | none =>
      ⟨-ENOSPC, tail, [], [], idr, [], 1⟩
    | some k =>
      let id := k ||| MAGIC_VAL
      let mb_msg := mailboxPkg msg k
      let idr1 : Idr := ⟨(k, mb_msg) :: idr.entries, k + 1⟩
      let inner := mailbox_send_msg N head tail mb_msg
      if inner.ret = 0 then
        ⟨0, inner.tail, inner.tailRegWrites, inner.ringWrites, idr1, [id], 0⟩
      else
        ⟨inner.ret, tail, [], [], mailbox_release_msgid idr1 id, [id], 1⟩

/-- Observable events of the receive / teardown paths. -/
inductive RxEvent where
  /-- Event `notify_cb(handle, data, size)`; `data = none` models a null pointer. -/
  | callback (handle : Nat) (data : Option (List Nat)) (size : Nat)
  /-- Event: `kfree` of the pending record registered under key `k`. -/
  | freeRecord (k : Nat)
  /-- Event `WARN_ONCE("Cannot find msg ...")` for an orphan response key. -/
  | warnOrphan (k : Nat)
  /-- Event `MB_DBG("Bad message ID ...")` for an ID without the magic prefix. -/
  | dbgBadMagic (id : Nat)
  /-- Event `WARN_ONCE("Invalid message size ...")`. -/
  | warnInvalidSize (sz tl hd : Nat)
  /-- async record appended to `async_msg_list`. -/
  | asyncQueued (opcode : Nat) (payload : List Nat)
  /-- Event `complete(&async_comp)`. -/
  | asyncComplete
deriving Repr, DecidableEq

/-- The `struct xdna_mailbox_async` content: opcode plus copied payload words. -/
structure AsyncMsg where
  opcode : Nat
  payload : List Nat
deriving Repr, DecidableEq

/-- Environment of one `mailbox_get_msg` call: the I2X tail register value,
the I2X ring size, the ring content (32-bit word at each byte offset, written
by the device), and whether `kzalloc` of an async record succeeds. -/
structure RxEnv where
  tailReg : Nat
  N : Nat
  ring : Nat → Nat
  allocOk : Bool

/-- Channel state touched by the receive path. -/
structure RxState where
  i2xHead : Nat
  idr : Idr
  asyncList : List AsyncMsg
  asyncComp : Nat
deriving Repr, DecidableEq

/-- Result of one `mailbox_get_msg` call: return value, state afterwards,
writes to the I2X head register, events, and the ring offsets read. -/
structure RxOut where
  ret : Int
  st : RxState
  headRegWrites : List Nat
  events : List RxEvent
  ringReads : List Nat
deriving Repr, DecidableEq

/-- Read `n` bytes from the ring at byte offset `off` as whole words
(transfers in this driver are 4-byte aligned; a trailing partial word is
modelled as the whole word). -/
def readWords (ring : Nat → Nat) (off n : Nat) : List Nat :=
  (List.range ((n + 3) / 4)).map (fun i => ring (off + 4 * i))

/-- Parse the 16-byte header at byte offset `off` (`memcpy_fromio` into
`struct xdna_msg_header`). -/
def readHeader (ring : Nat → Nat) (off : Nat) : XdnaMsgHeader :=
  { total_size := ring off
    size := ring (off + 4) % 2 ^ 11
    rsvd0 := ring (off + 4) / 2 ^ 11 % 2 ^ 5
    protocol_version := ring (off + 4) / 2 ^ 16 % 2 ^ 8
    rsvd1 := ring (off + 4) / 2 ^ 24 % 2 ^ 8
    id := ring (off + 8)
    opcode := ring (off + 12) }

/-- Embedding of `mailbox_get_resp`: dispatch a response header to its pending record.
`data` is the payload the callback would receive.  Returns the pending map
afterwards and the events emitted. -/
def mailbox_get_resp (idr : Idr) (header : XdnaMsgHeader) (data : List Nat) :
    Idr × List RxEvent :=
  if ¬ mailbox_validate_msgid header.id then
    (idr, [.dbgBadMagic header.id])
  else
    let k := header.id &&& 0xFFFFFF
    match idrFind idr k with
    | none => (idr, [.warnOrphan k])
    | some mb =>
      (idrRemove idr k,
       (if mb.hasCb then [.callback mb.handle (some data) header.size] else []) ++
         [.freeRecord k])

/-- Embedding of `mailbox_get_async_msg`: queue a device-originated async message.
Returns the async list, the completion count and the events. -/
def mailbox_get_async_msg (allocOk : Bool) (asyncList : List AsyncMsg)
    (asyncComp : Nat) (header : XdnaMsgHeader) (data : List Nat) :
    List AsyncMsg × Nat × List RxEvent :=
  if ¬ allocOk then
    (asyncList, asyncComp, [])
  else
    let rec' : AsyncMsg := ⟨header.opcode, data⟩
    (asyncList ++ [rec'], asyncComp + 1,
     [.asyncQueued header.opcode data, .asyncComplete])

/-- Embedding of `mailbox_get_msg`: one drain iteration of the I2X ring. -/
def mailbox_get_msg (env : RxEnv) (st : RxState) : RxOut :=
  let tail := env.tailReg
  let head0 := st.i2xHead
  if head0 &&& (env.N - 1) = tail &&& (env.N - 1) then
    ⟨-ENOENT, st, [], [], []⟩
  else
    let head := if head0 = env.N then 0 else head0
    let val := env.ring head
    if val = TOMBSTONE then
      ⟨0, { st with i2xHead := 0 }, [0], [], [head]⟩
    else
      let msg_size := val
      let header := readHeader env.ring head
      if sub32 tail head < add32 msg_size 16 then
        ⟨-EINVAL, st, [], [.warnInvalidSize msg_size tail head],
         [head, head + 4, head + 8, head + 12]⟩
      else
        let data := readWords env.ring (head + 16) header.size
        let newHead := add32 head (add32 16 msg_size)
        if header.id < ASYNC_MSG_START_ID then
          let r := mailbox_get_resp st.idr header data
          ⟨0, { st with i2xHead := newHead, idr := r.1 }, [newHead], r.2,
           [head, head + 4, head + 8, head + 12]⟩
        else
          let a :=
            mailbox_get_async_msg env.allocOk st.asyncList st.asyncComp header data
          ⟨0, { st with i2xHead := newHead, asyncList := a.1, asyncComp := a.2.1 },
           [newHead], a.2.2, [head, head + 4, head + 8, head + 12]⟩

/-- Embedding of `mailbox_rx_worker`: drain the I2X ring until `mailbox_get_msg` returns
non-zero.  `fuel` bounds the iteration count (the C loop is bounded by the
ring occupancy; any sufficiently large fuel gives the same result). -/
def mailbox_rx_worker : Nat → RxEnv → RxState → RxState × List RxEvent
  | 0, _, st => (st, [])
  | fuel + 1, env, st =>
    let out := mailbox_get_msg env st
    if out.ret = 0 then
      let (st', evs) := mailbox_rx_worker fuel env out.st
      (st', out.events ++ evs)
    else
      (out.st, out.events)

/-- Embedding of `mailbox_release_msg`: the `idr_for_each` teardown visitor — invoke the
callback with a null pointer and size 0 (when present), then free. -/
def mailbox_release_msg (k : Nat) (m : MailboxMsg) : List RxEvent :=
  (if m.hasCb then [.callback m.handle none 0] else []) ++ [.freeRecord k]

/-- The pending-map teardown of `xdna_mailbox_destroy_channel`:
`idr_for_each(&chan_idr, mailbox_release_msg, ...)` followed by
`idr_destroy`.  Returns the events and the pending map afterwards. -/
def xdna_mailbox_destroy_channel (idr : Idr) : List RxEvent × Idr :=
  (idr.entries.flatMap (fun e => mailbox_release_msg e.1 e.2), ⟨[], 0⟩)

/-! ## Helper lemmas -/

theorem add32_eq {a b : Nat} (h : a + b < U32) : add32 a b = a + b := by
  simp [add32, Nat.mod_eq_of_lt h]

theorem sub32_eq {a b : Nat} (hba : b ≤ a) (ha : a < U32) : sub32 a b = a - b := by
  have hU : 0 < U32 := by norm_num [U32]
  simp only [sub32, U32] at *
  omega

/-- Any key proposed by the cyclic scan is below `MAX_MSG_ID_ENTRIES` and
currently free. -/
theorem idrFindFree_some {idr : Idr} {k : Nat} (h : idrFindFree idr = some k) :
    k < MAX_MSG_ID_ENTRIES ∧ idrFind idr k = none := by
  unfold idrFindFree at h
  have hmem := List.find?_some h
  have hk := List.mem_of_find?_eq_some h
  constructor
  · rcases List.mem_map.mp hk with ⟨i, _, rfl⟩
    exact Nat.mod_lt _ (by norm_num [MAX_MSG_ID_ENTRIES])
  · simpa [Option.isNone_iff_eq_none] using hmem

/-- When every key below `MAX_MSG_ID_ENTRIES` is taken, the cyclic scan
fails. -/
theorem idrFindFree_none {idr : Idr}
    (h : ∀ i < MAX_MSG_ID_ENTRIES, (idrFind idr i).isSome) :
    idrFindFree idr = none := by
  unfold idrFindFree
  rw [List.find?_eq_none]
  intro k hk
  rcases List.mem_map.mp hk with ⟨i, _, rfl⟩
  have hlt : (idr.next + i) % MAX_MSG_ID_ENTRIES < MAX_MSG_ID_ENTRIES :=
    Nat.mod_lt _ (by norm_num [MAX_MSG_ID_ENTRIES])
  have hs := h _ hlt
  simp only [Option.isNone_iff_eq_none]
  exact Option.isSome_iff_ne_none.mp hs

/-- Removing a key that is absent leaves the entry list unchanged. -/
theorem filter_ne_of_find?_none {l : List (Nat × MailboxMsg)} {k : Nat}
    (h : l.find? (fun e => e.1 == k) = none) :
    l.filter (fun e => !(e.1 == k)) = l := by
  rw [List.find?_eq_none] at h
  rw [List.filter_eq_self]
  intro e he
  simpa using h e he

set_option maxRecDepth 4096 in
/-- Bit identities for allocated IDs, for any low key below 256. -/
theorem msgid_bits (k : Nat) (hk : k < 256) :
    (k ||| MAGIC_VAL) &&& MAGIC_VAL_MASK = MAGIC_VAL ∧
      (k ||| MAGIC_VAL) &&& 0xFFFFFF = k ∧
      (k ||| MAGIC_VAL) < ASYNC_MSG_START_ID := by
  revert k
  decide

/-- Lemma: `mailbox_send_msg` returns either success or `-ENOSPC`. -/
theorem mailbox_send_msg_ret (N head tail : Nat) (msg : MailboxMsg) :
    (mailbox_send_msg N head tail msg).ret = 0 ∨
      (mailbox_send_msg N head tail msg).ret = -ENOSPC := by
  unfold mailbox_send_msg
  dsimp only
  split_ifs <;> simp [ENOSPC]

theorem idrFind_none_find? {idr : Idr} {k : Nat} (h : idrFind idr k = none) :
    idr.entries.find? (fun e => e.1 == k) = none := by
  unfold idrFind at h
  cases hfx : idr.entries.find? (fun e => e.1 == k) with
  | none => rfl
  | some v => rw [hfx] at h; simp at h

/-- Releasing the ID just allocated restores the entry list: the freshly
consed entry is removed and no older entry carried the same key. -/
theorem release_msgid_restores (idr : Idr) (k : Nat) (m : MailboxMsg)
    (hfind : idrFind idr k = none) (hk : k < 256) :
    mailbox_release_msgid ⟨(k, m) :: idr.entries, k + 1⟩ (k ||| MAGIC_VAL) =
      ⟨idr.entries, k + 1⟩ := by
  obtain ⟨-, hmask, -⟩ := msgid_bits k hk
  unfold mailbox_release_msgid idrRemove
  simp only [hmask, List.filter_cons]
  simp [filter_ne_of_find?_none (idrFind_none_find? hfind)]

section SendShape

variable (N head tail : Nat) (idr : Idr) (msg : XdnaMailboxMsg)

/-- Branch lemma: oversize message. -/
theorem send_shape_oversize (h1 : N < 16 + msg.sendSize) :
    xdna_mailbox_send_msg N head tail idr msg = ⟨-EINVAL, tail, [], [], idr, [], 0⟩ := by
  unfold xdna_mailbox_send_msg
  dsimp only
  rw [if_pos h1]

/-- Branch lemma: unaligned payload size. -/
theorem send_shape_unaligned (h1 : ¬ N < 16 + msg.sendSize)
    (h2 : ¬ msg.sendSize % 4 = 0) :
    xdna_mailbox_send_msg N head tail idr msg = ⟨-EINVAL, tail, [], [], idr, [], 0⟩ := by
  unfold xdna_mailbox_send_msg
  dsimp only
  rw [if_neg h1, if_pos h2]

/-- Branch lemma: tombstone leading payload word. -/
theorem send_shape_tombstone (h1 : ¬ N < 16 + msg.sendSize)
    (h2 : msg.sendSize % 4 = 0) (h3 : msg.sendData.headD 0 = TOMBSTONE) :
    xdna_mailbox_send_msg N head tail idr msg = ⟨-EINVAL, tail, [], [], idr, [], 0⟩ := by
  unfold xdna_mailbox_send_msg
  dsimp only
  rw [if_neg h1, if_neg (by simp [h2]), if_pos h3]

/-- Branch lemma: pending map exhausted. -/
theorem send_shape_exhausted (h1 : ¬ N < 16 + msg.sendSize)
    (h2 : msg.sendSize % 4 = 0) (h3 : ¬ msg.sendData.headD 0 = TOMBSTONE)
    (hf : idrFindFree idr = none) :
    xdna_mailbox_send_msg N head tail idr msg = ⟨-ENOSPC, tail, [], [], idr, [], 1⟩ := by
  unfold xdna_mailbox_send_msg
  dsimp only
  rw [if_neg h1, if_neg (by simp [h2]), if_neg h3, hf]

/-- Branch lemma: ring write succeeded. -/
theorem send_shape_ok (k : Nat) (h1 : ¬ N < 16 + msg.sendSize)
    (h2 : msg.sendSize % 4 = 0) (h3 : ¬ msg.sendData.headD 0 = TOMBSTONE)
    (hf : idrFindFree idr = some k)
    (hret : (mailbox_send_msg N head tail (mailboxPkg msg k)).ret = 0) :
    xdna_mailbox_send_msg N head tail idr msg =
      ⟨0, (mailbox_send_msg N head tail (mailboxPkg msg k)).tail,
       (mailbox_send_msg N head tail (mailboxPkg msg k)).tailRegWrites,
       (mailbox_send_msg N head tail (mailboxPkg msg k)).ringWrites,
       ⟨(k, mailboxPkg msg k) :: idr.entries, k + 1⟩, [k ||| MAGIC_VAL], 0⟩ := by
  unfold xdna_mailbox_send_msg
  dsimp only
  rw [if_neg h1, if_neg (by simp [h2]), if_neg h3, hf]
  dsimp only
  rw [if_pos hret]

/-- Branch lemma: ring write failed (ring full). -/
theorem send_shape_nospace (k : Nat) (h1 : ¬ N < 16 + msg.sendSize)
    (h2 : msg.sendSize % 4 = 0) (h3 : ¬ msg.sendData.headD 0 = TOMBSTONE)
    (hf : idrFindFree idr = some k)
    (hret : ¬ (mailbox_send_msg N head tail (mailboxPkg msg k)).ret = 0) :
    xdna_mailbox_send_msg N head tail idr msg =
      ⟨(mailbox_send_msg N head tail (mailboxPkg msg k)).ret, tail, [], [],
       mailbox_release_msgid ⟨(k, mailboxPkg msg k) :: idr.entries, k + 1⟩
         (k ||| MAGIC_VAL), [k ||| MAGIC_VAL], 1⟩ := by
  unfold xdna_mailbox_send_msg
  dsimp only
  rw [if_neg h1, if_neg (by simp [h2]), if_neg h3, hf]
  dsimp only
  rw [if_neg hret]

end SendShape

/-- Lemma: `mailbox_send_msg` reports *no space* exactly under the two ring-full
conditions of the write algorithm (stated in exact arithmetic, which the
overflow bounds make equal to the `u32` arithmetic of the code). -/
theorem mailbox_send_msg_nospace_iff (N head tail : Nat) (msg : MailboxMsg)
    (hN4 : 4 ≤ N) (hNU : N < U32) (hov : tail + msg.pkgSize < U32) :
    ((mailbox_send_msg N head tail msg).ret = -ENOSPC ↔
      ((tail < head ∧ head ≤ tail + msg.pkgSize) ∨
        (head ≤ tail ∧ N - 4 < tail + msg.pkgSize ∧ head ≤ msg.pkgSize))) := by
  have htmp : add32 tail msg.pkgSize = tail + msg.pkgSize := add32_eq hov
  have hsub : sub32 N 4 = N - 4 := sub32_eq hN4 hNU
  unfold mailbox_send_msg
  dsimp only
  rw [htmp, hsub]
  split_ifs with c1 c2 c3
  · exact iff_of_true rfl (Or.inl c1)
  · exact iff_of_true rfl (Or.inr c2)
  · exact iff_of_false (by norm_num [ENOSPC]) (fun hc => hc.elim c1 c2)
  · exact iff_of_false (by norm_num [ENOSPC]) (fun hc => hc.elim c1 c2)

/-- C1: when, at the time of the ring write, the cached tail `T` is at least
the head register `H`, `T + S` exceeds `N − 4`, and `S < H` (with `N` the
power-of-two X2I ring size and `S` the packaged size), the send succeeds by
writing the 32-bit tombstone `0xDEADFACE` at offset `T`, copying the `S`
packaged bytes at offset 0, and publishing `S` to both the cached tail and
the X2I tail register. -/
theorem send_wrap_writes_tombstone_then_start
    (N head tail : Nat) (msg : MailboxMsg) (p : Nat)
    (hpow : N = 2 ^ p)
    (hN4 : 4 ≤ N) (hNU : N < U32)
    (hov : tail + msg.pkgSize < U32)
    (hTH : head ≤ tail)
    (hwrap : N - 4 < tail + msg.pkgSize)
    (hSH : msg.pkgSize < head)
    (hwf : msg.wf) :
    mailbox_send_msg N head tail msg =
      ⟨0, msg.pkgSize, [msg.pkgSize],
       [⟨tail, [TOMBSTONE]⟩, ⟨0, pkgWords msg⟩]⟩ ∧
      4 * (pkgWords msg).length = msg.pkgSize := by
  have htmp : add32 tail msg.pkgSize = tail + msg.pkgSize := add32_eq hov
  have hsub : sub32 N 4 = N - 4 := sub32_eq (by omega) hNU
  have hS : add32 0 msg.pkgSize = msg.pkgSize := by
    have : msg.pkgSize < U32 := by omega
    simpa [add32] using Nat.mod_eq_of_lt this
  have c1 : ¬(tail < head ∧ head ≤ tail + msg.pkgSize) := by omega
  have c2 : ¬(head ≤ tail ∧ (N - 4 < tail + msg.pkgSize ∧ head ≤ msg.pkgSize)) := by
    omega
  have c3 : head ≤ tail ∧ N - 4 < tail + msg.pkgSize := ⟨hTH, hwrap⟩
  constructor
  · simp only [mailbox_send_msg, htmp, hsub, if_neg c1, if_neg c2, if_pos c3, hS,
      List.singleton_append]
  · have hlen : (pkgWords msg).length = 4 + msg.payload.length := by
      simp only [pkgWords, headerWords, List.length_append, List.length_cons,
        List.length_nil]
      try omega
    have hwf' : msg.pkgSize = 16 + 4 * msg.payload.length := hwf
    rw [hlen, hwf']
    omega

/-- C1 witness: ring size 64, head register 40, cached tail 48, packaged
size 32: the tombstone lands at offset 48, the message at offset 0, and both
tails become 32. -/
theorem send_wrap_writes_tombstone_then_start_witness :
    mailbox_send_msg 64 40 48 ⟨0, false, 32, ⟨16, 16, 0, 1, 0, 5, 7⟩, [1, 2, 3, 4]⟩ =
      ⟨0, 32, [32],
       [⟨48, [TOMBSTONE]⟩,
        ⟨0, pkgWords ⟨0, false, 32, ⟨16, 16, 0, 1, 0, 5, 7⟩, [1, 2, 3, 4]⟩⟩]⟩ ∧
      4 * (pkgWords ⟨0, false, 32, ⟨16, 16, 0, 1, 0, 5, 7⟩, [1, 2, 3, 4]⟩).length = 32 :=
  send_wrap_writes_tombstone_then_start 64 40 48
    ⟨0, false, 32, ⟨16, 16, 0, 1, 0, 5, 7⟩, [1, 2, 3, 4]⟩ 6
    (by norm_num) (by norm_num) (by norm_num [U32]) (by norm_num [U32])
    (by norm_num) (by norm_num) (by norm_num) (by rfl)

/-- C4: every ID issued by `mailbox_acquire_msgid` has the magic prefix
`0x1D` in its upper 8 bits, a low 24-bit index below 256, and in particular
lies below the async threshold `0x80000000`. -/
theorem acquire_msgid_magic_and_bounded
    (idr : Idr) (m : MailboxMsg) (id : Nat) (idr' : Idr)
    (h : mailbox_acquire_msgid idr m = some (id, idr')) :
    id &&& 0xFF000000 = 0x1D000000 ∧ id &&& 0x00FFFFFF < 256 ∧
      id < 0x80000000 := by
  unfold mailbox_acquire_msgid idrAllocCyclic at h
  cases hf : idrFindFree idr with
  | none => rw [hf] at h; simp at h
  | some k =>
    rw [hf] at h
    simp only [Option.some.injEq, Prod.mk.injEq] at h
    obtain ⟨hid, -⟩ := h
    have hk : k < 256 := by
      simpa [MAX_MSG_ID_ENTRIES] using (idrFindFree_some hf).1
    obtain ⟨h1, h2, h3⟩ := msgid_bits k hk
    subst hid
    refine ⟨?_, ?_, ?_⟩
    · simpa [MAGIC_VAL_MASK, MAGIC_VAL] using h1
    · rw [show (0x00FFFFFF : Nat) = 0xFFFFFF from rfl, h2]; exact hk
    · simpa [ASYNC_MSG_START_ID] using h3

/-- C4 witness: allocating from an empty pending map issues `0x1D000000`,
which has the magic prefix, index 0, and lies below the async threshold. -/
theorem acquire_msgid_magic_and_bounded_witness :
    0x1D000000 &&& 0xFF000000 = 0x1D000000 ∧ 0x1D000000 &&& 0x00FFFFFF < 256 ∧
      0x1D000000 < 0x80000000 :=
  acquire_msgid_magic_and_bounded ⟨[], 0⟩ ⟨0, false, 16, ⟨0, 0, 0, 1, 0, 0, 0⟩, []⟩
    0x1D000000 ⟨[(0, ⟨0, false, 16, ⟨0, 0, 0, 1, 0, 0, 0⟩, []⟩)], 1⟩ (by decide)

/-- C9: with all 256 pending-map keys outstanding, a valid send fails with
`-ENOSPC` from ID allocation; the prepared record is freed once, the pending
map is unchanged, no ID is issued, and nothing is written to the ring or the
tail register. -/
theorem send_id_exhaustion
    (N head tail : Nat) (idr : Idr) (msg : XdnaMailboxMsg)
    (hfull : ∀ i < MAX_MSG_ID_ENTRIES, (idrFind idr i).isSome)
    (hsz : 16 + msg.sendSize ≤ N)
    (hal : msg.sendSize % 4 = 0)
    (htb : ¬ msg.sendData.headD 0 = TOMBSTONE) :
    xdna_mailbox_send_msg N head tail idr msg =
      ⟨-ENOSPC, tail, [], [], idr, [], 1⟩ := by
  unfold xdna_mailbox_send_msg
  dsimp only
  rw [if_neg (by omega), if_neg (by simp [hal]), if_neg htb,
    idrFindFree_none hfull]

/-- The record used to populate concrete pending maps in witnesses. -/
def mbUnit : MailboxMsg := ⟨0, false, 16, ⟨0, 0, 0, 1, 0, 0, 0⟩, []⟩

/-- A pending map holding all 256 keys. -/
def fullIdr : Idr := ⟨(List.range 256).map (fun i => (i, mbUnit)), 0⟩

set_option maxRecDepth 20000 in
/-- C9 witness: the 257th send against a full pending map returns `-ENOSPC`
with no side effect on the map or ring. -/
theorem send_id_exhaustion_witness :
    xdna_mailbox_send_msg 64 0 0 fullIdr ⟨7, [1], 4, 0, true⟩ =
      ⟨-ENOSPC, 0, [], [], fullIdr, [], 1⟩ :=
  send_id_exhaustion 64 0 0 fullIdr ⟨7, [1], 4, 0, true⟩ (by decide)
    (by norm_num) (by norm_num) (by decide)

/-- C7: `xdna_mailbox_send_msg` returns `-EINVAL` exactly when the payload
size is not a multiple of 4, the first payload word is the tombstone
`0xDEADFACE`, or the framed size (payload plus 16-byte header) exceeds the
X2I ring size; and on that failure the call leaves the pending map, cached
tail, tail register and ring untouched, issues no ID and frees no record
(none was allocated), so no callback can ever fire for it. -/
theorem send_einval_iff
    (N head tail : Nat) (idr : Idr) (msg : XdnaMailboxMsg) :
    ((xdna_mailbox_send_msg N head tail idr msg).ret = -EINVAL ↔
      (¬ msg.sendSize % 4 = 0 ∨ msg.sendData.headD 0 = TOMBSTONE ∨
        N < 16 + msg.sendSize)) ∧
    ((xdna_mailbox_send_msg N head tail idr msg).ret = -EINVAL →
      xdna_mailbox_send_msg N head tail idr msg =
        ⟨-EINVAL, tail, [], [], idr, [], 0⟩) := by
  by_cases h1 : N < 16 + msg.sendSize
  · rw [send_shape_oversize N head tail idr msg h1]
    exact ⟨iff_of_true rfl (Or.inr (Or.inr h1)), fun _ => rfl⟩
  by_cases h2 : msg.sendSize % 4 = 0
  · by_cases h3 : msg.sendData.headD 0 = TOMBSTONE
    · rw [send_shape_tombstone N head tail idr msg h1 h2 h3]
      exact ⟨iff_of_true rfl (Or.inr (Or.inl h3)), fun _ => rfl⟩
    · have hrhs : ¬(¬ msg.sendSize % 4 = 0 ∨ msg.sendData.headD 0 = TOMBSTONE ∨
          N < 16 + msg.sendSize) := by tauto
      cases hf : idrFindFree idr with
      | none =>
        rw [send_shape_exhausted N head tail idr msg h1 h2 h3 hf]
        refine ⟨iff_of_false ?_ hrhs, fun hret => absurd hret ?_⟩ <;>
          simp [EINVAL, ENOSPC]
      | some k =>
        by_cases hret : (mailbox_send_msg N head tail (mailboxPkg msg k)).ret = 0
        · rw [send_shape_ok N head tail idr msg k h1 h2 h3 hf hret]
          refine ⟨iff_of_false ?_ hrhs, fun hc => absurd hc ?_⟩ <;>
            simp [EINVAL]
        · rw [send_shape_nospace N head tail idr msg k h1 h2 h3 hf hret]
          have hn : (mailbox_send_msg N head tail (mailboxPkg msg k)).ret = -ENOSPC :=
            (mailbox_send_msg_ret N head tail (mailboxPkg msg k)).resolve_left hret
          refine ⟨iff_of_false ?_ hrhs, fun hc => absurd hc ?_⟩ <;>
            simp [hn, EINVAL, ENOSPC]
  · rw [send_shape_unaligned N head tail idr msg h1 h2]
    exact ⟨iff_of_true rfl (Or.inl h2), fun _ => rfl⟩

/-- C2: once a valid message has its ID allocated, the send returns
`-ENOSPC` exactly under the two ring-full conditions at the time of the ring
write (`T < H ∧ T + S ≥ H`, or `T ≥ H ∧ T + S > N − 4 ∧ S ≥ H`, with
`S = 16 + send_size` the packaged size); and on that failure no ring bytes
are written, the tail register and cached tail are untouched, the allocated
ID is released so the pending map's contents are restored (only the cyclic
cursor has moved on), and the record is freed exactly once. -/
theorem send_nospace_iff
    (N head tail : Nat) (idr : Idr) (msg : XdnaMailboxMsg) (k : Nat)
    (hf : idrFindFree idr = some k)
    (hsz : ¬ N < 16 + msg.sendSize)
    (hal : msg.sendSize % 4 = 0)
    (htb : ¬ msg.sendData.headD 0 = TOMBSTONE)
    (hN4 : 4 ≤ N) (hNU : N < U32)
    (hov : tail + (16 + msg.sendSize) < U32) :
    ((xdna_mailbox_send_msg N head tail idr msg).ret = -ENOSPC ↔
      ((tail < head ∧ head ≤ tail + (16 + msg.sendSize)) ∨
        (head ≤ tail ∧ N - 4 < tail + (16 + msg.sendSize) ∧
          head ≤ 16 + msg.sendSize))) ∧
    ((xdna_mailbox_send_msg N head tail idr msg).ret = -ENOSPC →
      xdna_mailbox_send_msg N head tail idr msg =
        ⟨-ENOSPC, tail, [], [], ⟨idr.entries, k + 1⟩, [k ||| MAGIC_VAL], 1⟩) := by
  have hpkg : (mailboxPkg msg k).pkgSize = 16 + msg.sendSize := rfl
  have hinner := mailbox_send_msg_nospace_iff N head tail (mailboxPkg msg k)
    hN4 hNU (by rw [hpkg]; exact hov)
  rw [hpkg] at hinner
  by_cases hns : (mailbox_send_msg N head tail (mailboxPkg msg k)).ret = 0
  · rw [send_shape_ok N head tail idr msg k hsz hal htb hf hns]
    have hrhs : ¬((tail < head ∧ head ≤ tail + (16 + msg.sendSize)) ∨
        (head ≤ tail ∧ N - 4 < tail + (16 + msg.sendSize) ∧
          head ≤ 16 + msg.sendSize)) := by
      intro hc
      have := hinner.mpr hc
      rw [hns] at this
      exact absurd this (by norm_num [ENOSPC])
    refine ⟨iff_of_false (by norm_num [ENOSPC]) hrhs, fun hc => ?_⟩
    exact absurd hc (by norm_num [ENOSPC])
  · have hn : (mailbox_send_msg N head tail (mailboxPkg msg k)).ret = -ENOSPC :=
      (mailbox_send_msg_ret N head tail (mailboxPkg msg k)).resolve_left hns
    rw [send_shape_nospace N head tail idr msg k hsz hal htb hf hns]
    have hrel := release_msgid_restores idr k (mailboxPkg msg k)
      (idrFindFree_some hf).2
      (by simpa [MAX_MSG_ID_ENTRIES] using (idrFindFree_some hf).1)
    refine ⟨?_, fun _ => ?_⟩
    · show (mailbox_send_msg N head tail (mailboxPkg msg k)).ret = -ENOSPC ↔ _
      rw [hn]
      exact iff_of_true rfl (hinner.mp hn)
    · rw [hn, hrel]

/-- C2 witness: ring size 64, head register 4, cached tail 0, framed size 20
(the wrap-around-blocked condition `T < H ∧ T + S ≥ H`): the send returns
`-ENOSPC`, nothing is written, and the pending-map contents are restored. -/
theorem send_nospace_iff_witness :
    ((xdna_mailbox_send_msg 64 4 0 ⟨[], 0⟩ ⟨7, [1], 4, 0, true⟩).ret = -ENOSPC ↔
      (((0 : Nat) < 4 ∧ 4 ≤ 0 + (16 + 4)) ∨
        ((4 : Nat) ≤ 0 ∧ 64 - 4 < 0 + (16 + 4) ∧ 4 ≤ 16 + 4))) ∧
    ((xdna_mailbox_send_msg 64 4 0 ⟨[], 0⟩ ⟨7, [1], 4, 0, true⟩).ret = -ENOSPC →
      xdna_mailbox_send_msg 64 4 0 ⟨[], 0⟩ ⟨7, [1], 4, 0, true⟩ =
        ⟨-ENOSPC, 0, [], [], ⟨[], 1⟩, [0 ||| MAGIC_VAL], 1⟩) :=
  send_nospace_iff 64 4 0 ⟨[], 0⟩ ⟨7, [1], 4, 0, true⟩ 0 (by decide)
    (by norm_num) (by norm_num) (by decide) (by norm_num) (by norm_num [U32])
    (by norm_num [U32])

/-- A successful ring write always ends with the package itself (possibly
preceded by a tombstone write). -/
theorem mailbox_send_msg_ok_last (N head tail : Nat) (msg : MailboxMsg)
    (h : (mailbox_send_msg N head tail msg).ret = 0) :
    (∃ t', (mailbox_send_msg N head tail msg).ringWrites.getLast? =
      some ⟨t', pkgWords msg⟩) := by
  unfold mailbox_send_msg at h ⊢
  dsimp only at h ⊢
  split_ifs at h ⊢ with c1 c2 c3
  · exact absurd h (by norm_num [ENOSPC])
  · exact absurd h (by norm_num [ENOSPC])
  · exact ⟨0, rfl⟩
  · exact ⟨tail, rfl⟩

/-- C6 counterexample to the claim as stated: on a 4096-byte ring, a
2048-byte payload is accepted (`ret = 0`), yet the 11-bit `size` field of
the header written to the ring holds `2048 % 2^11 = 0`, not the promised
`send_size = 2048` (the C bitfield store truncates to 11 bits). -/
theorem send_header_size_field_counterexample :
    (xdna_mailbox_send_msg 4096 0 0 ⟨[], 0⟩
        ⟨0x100, List.replicate 512 1, 2048, 0, true⟩).ret = 0 ∧
    ((xdna_mailbox_send_msg 4096 0 0 ⟨[], 0⟩
        ⟨0x100, List.replicate 512 1, 2048, 0, true⟩).ringWrites.headD
      ⟨0, []⟩).words.getD 1 0 % 2 ^ 11 = 0 ∧
    (0 : Nat) ≠ 2048 :=
  ⟨rfl, rfl, by norm_num⟩

/-- C6 (amended): for every accepted send, the 16-byte header written ahead
of the payload carries `total_size = send_size`, the 11-bit `size` field
equal to `send_size mod 2^11` — hence equal to `send_size` exactly when
`send_size < 2048` — protocol version 1, the caller's opcode, and the
allocated ID. -/
theorem send_header_fields
    (N head tail : Nat) (idr : Idr) (msg : XdnaMailboxMsg) (k : Nat)
    (hf : idrFindFree idr = some k)
    (hret : (xdna_mailbox_send_msg N head tail idr msg).ret = 0)
    (hNU : N < U32) (hop : msg.opcode < U32) :
    (∃ t', (xdna_mailbox_send_msg N head tail idr msg).ringWrites.getLast? =
      some ⟨t', headerWords (mailboxPkg msg k).header ++
        msg.sendData.take (msg.sendSize / 4)⟩) ∧
    (mailboxPkg msg k).header.total_size = msg.sendSize ∧
    (mailboxPkg msg k).header.size = msg.sendSize % 2 ^ 11 ∧
    (msg.sendSize < 2 ^ 11 → (mailboxPkg msg k).header.size = msg.sendSize) ∧
    (mailboxPkg msg k).header.protocol_version = 1 ∧
    (mailboxPkg msg k).header.opcode = msg.opcode ∧
    (mailboxPkg msg k).header.id = k ||| MAGIC_VAL ∧
    (xdna_mailbox_send_msg N head tail idr msg).allocatedIds = [k ||| MAGIC_VAL] := by
  by_cases h1 : N < 16 + msg.sendSize
  · rw [send_shape_oversize N head tail idr msg h1] at hret
    exact absurd hret (by norm_num [EINVAL])
  by_cases h2 : msg.sendSize % 4 = 0
  case neg =>
    rw [send_shape_unaligned N head tail idr msg h1 h2] at hret
    exact absurd hret (by norm_num [EINVAL])
  by_cases h3 : msg.sendData.headD 0 = TOMBSTONE
  · rw [send_shape_tombstone N head tail idr msg h1 h2 h3] at hret
    exact absurd hret (by norm_num [EINVAL])
  by_cases hns : (mailbox_send_msg N head tail (mailboxPkg msg k)).ret = 0
  case neg =>
    rw [send_shape_nospace N head tail idr msg k h1 h2 h3 hf hns] at hret
    exact absurd hret hns
  rw [send_shape_ok N head tail idr msg k h1 h2 h3 hf hns]
  have hszU : msg.sendSize < U32 := by
    have : 16 + msg.sendSize ≤ N := by omega
    omega
  refine ⟨?_, ?_, rfl, fun hsmall => Nat.mod_eq_of_lt hsmall, rfl, ?_, rfl, rfl⟩
  · simpa [pkgWords] using mailbox_send_msg_ok_last N head tail (mailboxPkg msg k) hns
  · exact Nat.mod_eq_of_lt hszU
  · exact Nat.mod_eq_of_lt hop

/-- C6 witness: an 8-byte payload on a 64-byte ring is written with
`total_size = size = 8`, protocol version 1, opcode 7, and ID `0x1D000000`. -/
theorem send_header_fields_witness :
    (∃ t', (xdna_mailbox_send_msg 64 0 0 ⟨[], 0⟩ ⟨7, [1, 2], 8, 0, true⟩).ringWrites.getLast? =
      some ⟨t', headerWords (mailboxPkg ⟨7, [1, 2], 8, 0, true⟩ 0).header ++
        [(1 : Nat), 2].take (8 / 4)⟩) ∧
    (mailboxPkg ⟨7, [1, 2], 8, 0, true⟩ 0).header.total_size = 8 ∧
    (mailboxPkg ⟨7, [1, 2], 8, 0, true⟩ 0).header.size = 8 % 2 ^ 11 ∧
    ((8 : Nat) < 2 ^ 11 → (mailboxPkg ⟨7, [1, 2], 8, 0, true⟩ 0).header.size = 8) ∧
    (mailboxPkg ⟨7, [1, 2], 8, 0, true⟩ 0).header.protocol_version = 1 ∧
    (mailboxPkg ⟨7, [1, 2], 8, 0, true⟩ 0).header.opcode = 7 ∧
    (mailboxPkg ⟨7, [1, 2], 8, 0, true⟩ 0).header.id = 0 ||| MAGIC_VAL ∧
    (xdna_mailbox_send_msg 64 0 0 ⟨[], 0⟩ ⟨7, [1, 2], 8, 0, true⟩).allocatedIds =
      [0 ||| MAGIC_VAL] :=
  send_header_fields 64 0 0 ⟨[], 0⟩ ⟨7, [1, 2], 8, 0, true⟩ 0 (by decide) (by decide)
    (by norm_num [U32]) (by norm_num [U32])

/-- C7 witness: an unaligned 3-byte payload is rejected with `-EINVAL` and
leaves the channel state untouched. -/
theorem send_einval_iff_witness :
    ((xdna_mailbox_send_msg 64 0 0 ⟨[], 0⟩ ⟨7, [1], 3, 0, true⟩).ret = -EINVAL ↔
      (¬ (3 : Nat) % 4 = 0 ∨ [(1 : Nat)].headD 0 = TOMBSTONE ∨ (64 : Nat) < 16 + 3)) ∧
    ((xdna_mailbox_send_msg 64 0 0 ⟨[], 0⟩ ⟨7, [1], 3, 0, true⟩).ret = -EINVAL →
      xdna_mailbox_send_msg 64 0 0 ⟨[], 0⟩ ⟨7, [1], 3, 0, true⟩ =
        ⟨-EINVAL, 0, [], [], ⟨[], 0⟩, [], 0⟩) :=
  send_einval_iff 64 0 0 ⟨[], 0⟩ ⟨7, [1], 3, 0, true⟩

/-- Dispatch lemma: a validated response whose key is pending removes the
record, fires the callback (when present) and frees the record. -/
theorem get_resp_found (idr : Idr) (header : XdnaMsgHeader) (data : List Nat)
    (mb : MailboxMsg) (hvalid : mailbox_validate_msgid header.id = true)
    (hfind : idrFind idr (header.id &&& 0xFFFFFF) = some mb) :
    mailbox_get_resp idr header data =
      (idrRemove idr (header.id &&& 0xFFFFFF),
       (if mb.hasCb then [.callback mb.handle (some data) header.size] else []) ++
         [.freeRecord (header.id &&& 0xFFFFFF)]) := by
  unfold mailbox_get_resp
  dsimp only
  rw [if_neg (by simp [hvalid]), hfind]

/-- Dispatch lemma: a validated response with no pending entry only warns. -/
theorem get_resp_orphan (idr : Idr) (header : XdnaMsgHeader) (data : List Nat)
    (hvalid : mailbox_validate_msgid header.id = true)
    (hfind : idrFind idr (header.id &&& 0xFFFFFF) = none) :
    mailbox_get_resp idr header data =
      (idr, [.warnOrphan (header.id &&& 0xFFFFFF)]) := by
  unfold mailbox_get_resp
  dsimp only
  rw [if_neg (by simp [hvalid]), hfind]

/-- Dispatch lemma: an ID without the magic prefix is logged at debug level
and dropped. -/
theorem get_resp_badmagic (idr : Idr) (header : XdnaMsgHeader) (data : List Nat)
    (hvalid : ¬ mailbox_validate_msgid header.id = true) :
    mailbox_get_resp idr header data = (idr, [.dbgBadMagic header.id]) := by
  unfold mailbox_get_resp
  dsimp only
  rw [if_pos hvalid]

/-- C8: for a power-of-two I2X ring size, the per-iteration empty test the
code computes (`head & (N-1) == tail & (N-1)`) holds exactly when the cached
head and the tail register agree modulo `N`; when it holds the drain
iteration returns `-ENOENT` without reading the ring or touching the cached
head or head register, and the receive worker's loop terminates with the
state unchanged. -/
theorem rx_empty_test (env : RxEnv) (st : RxState) (p : Nat)
    (hp : env.N = 2 ^ p) :
    ((st.i2xHead &&& (env.N - 1) = env.tailReg &&& (env.N - 1)) ↔
      st.i2xHead % env.N = env.tailReg % env.N) ∧
    (st.i2xHead % env.N = env.tailReg % env.N →
      mailbox_get_msg env st = ⟨-ENOENT, st, [], [], []⟩ ∧
      ∀ fuel, mailbox_rx_worker (fuel + 1) env st = (st, [])) := by
  have hand : ∀ x : Nat, x &&& (env.N - 1) = x % env.N := by
    intro x
    rw [hp]
    exact Nat.and_pow_two_sub_one_eq_mod x p
  constructor
  · rw [hand, hand]
  · intro hmod
    have hemp : st.i2xHead &&& (env.N - 1) = env.tailReg &&& (env.N - 1) := by
      rw [hand, hand]
      exact hmod
    have hout : mailbox_get_msg env st = ⟨-ENOENT, st, [], [], []⟩ := by
      unfold mailbox_get_msg
      dsimp only
      rw [if_pos hemp]
    refine ⟨hout, fun fuel => ?_⟩
    unfold mailbox_rx_worker
    dsimp only
    rw [hout, if_neg (by norm_num [ENOENT])]

/-- C8 witness: ring size 64, cached head 80, tail register 16
(`80 mod 64 = 16`): the iteration reports empty and the worker stops with
nothing changed. -/
theorem rx_empty_test_witness :
    (((80 : Nat) &&& (64 - 1) = (16 : Nat) &&& (64 - 1)) ↔
      (80 : Nat) % 64 = (16 : Nat) % 64) ∧
    (mailbox_get_msg ⟨16, 64, fun _ => 0, true⟩ ⟨80, ⟨[], 0⟩, [], 0⟩ =
      ⟨-ENOENT, ⟨80, ⟨[], 0⟩, [], 0⟩, [], [], []⟩) ∧
    (mailbox_rx_worker 4 ⟨16, 64, fun _ => 0, true⟩ ⟨80, ⟨[], 0⟩, [], 0⟩ =
      (⟨80, ⟨[], 0⟩, [], 0⟩, [])) :=
  ⟨(rx_empty_test ⟨16, 64, fun _ => 0, true⟩ ⟨80, ⟨[], 0⟩, [], 0⟩ 6 rfl).1,
   ((rx_empty_test ⟨16, 64, fun _ => 0, true⟩ ⟨80, ⟨[], 0⟩, [], 0⟩ 6 rfl).2
      (by norm_num)).1,
   ((rx_empty_test ⟨16, 64, fun _ => 0, true⟩ ⟨80, ⟨[], 0⟩, [], 0⟩ 6 rfl).2
      (by norm_num)).2 3⟩

/-- Dispatch lemma: async record allocation succeeded — queue and signal. -/
theorem get_async_ok (asyncList : List AsyncMsg) (asyncComp : Nat)
    (header : XdnaMsgHeader) (data : List Nat) :
    mailbox_get_async_msg true asyncList asyncComp header data =
      (asyncList ++ [⟨header.opcode, data⟩], asyncComp + 1,
       [.asyncQueued header.opcode data, .asyncComplete]) := rfl

/-- Dispatch lemma: async record allocation failed — drop silently. -/
theorem get_async_nomem (asyncList : List AsyncMsg) (asyncComp : Nat)
    (header : XdnaMsgHeader) (data : List Nat) :
    mailbox_get_async_msg false asyncList asyncComp header data =
      (asyncList, asyncComp, []) := rfl

/-- C5: every inbound non-tombstone message that passes the size validation
advances the cached I2X head and the head register to `head + 16 + size`
(`size` being the message's leading total-size word, which the wire format
makes equal to the header's size field), whatever the dispatch outcome:
matched response (callback fired once with the payload, record removed and
freed), orphan key (one warning, no callback), bad magic (debug log, no
callback), or async message (record queued and completion signaled). -/
theorem rx_advances_head_past_message (env : RxEnv) (st : RxState)
    (head' : Nat)
    (hh : head' = if st.i2xHead = env.N then 0 else st.i2xHead)
    (hne : ¬ st.i2xHead &&& (env.N - 1) = env.tailReg &&& (env.N - 1))
    (hnt : ¬ env.ring head' = TOMBSTONE)
    (hval : ¬ sub32 env.tailReg head' < add32 (env.ring head') 16) :
    (mailbox_get_msg env st).ret = 0 ∧
    (mailbox_get_msg env st).st.i2xHead = add32 head' (add32 16 (env.ring head')) ∧
    (mailbox_get_msg env st).headRegWrites =
      [add32 head' (add32 16 (env.ring head'))] ∧
    ((readHeader env.ring head').id < ASYNC_MSG_START_ID →
      mailbox_validate_msgid (readHeader env.ring head').id = true →
      ∀ mb, idrFind st.idr ((readHeader env.ring head').id &&& 0xFFFFFF) = some mb →
        (mailbox_get_msg env st).events =
          (if mb.hasCb then
            [.callback mb.handle
              (some (readWords env.ring (head' + 16) (readHeader env.ring head').size))
              (readHeader env.ring head').size]
          else []) ++ [.freeRecord ((readHeader env.ring head').id &&& 0xFFFFFF)] ∧
        (mailbox_get_msg env st).st.idr =
          idrRemove st.idr ((readHeader env.ring head').id &&& 0xFFFFFF)) ∧
    ((readHeader env.ring head').id < ASYNC_MSG_START_ID →
      mailbox_validate_msgid (readHeader env.ring head').id = true →
      idrFind st.idr ((readHeader env.ring head').id &&& 0xFFFFFF) = none →
        (mailbox_get_msg env st).events =
          [.warnOrphan ((readHeader env.ring head').id &&& 0xFFFFFF)] ∧
        (mailbox_get_msg env st).st.idr = st.idr) ∧
    ((readHeader env.ring head').id < ASYNC_MSG_START_ID →
      ¬ mailbox_validate_msgid (readHeader env.ring head').id = true →
        (mailbox_get_msg env st).events = [.dbgBadMagic (readHeader env.ring head').id] ∧
        (mailbox_get_msg env st).st.idr = st.idr) ∧
    (¬ (readHeader env.ring head').id < ASYNC_MSG_START_ID →
      env.allocOk = true →
        (mailbox_get_msg env st).st.asyncList =
          st.asyncList ++ [⟨(readHeader env.ring head').opcode,
            readWords env.ring (head' + 16) (readHeader env.ring head').size⟩] ∧
        (mailbox_get_msg env st).st.asyncComp = st.asyncComp + 1 ∧
        (mailbox_get_msg env st).events =
          [.asyncQueued (readHeader env.ring head').opcode
            (readWords env.ring (head' + 16) (readHeader env.ring head').size),
           .asyncComplete]) := by
  subst hh
  unfold mailbox_get_msg
  dsimp only
  rw [if_neg hne, if_neg hnt, if_neg hval]
  set hd := readHeader env.ring (if st.i2xHead = env.N then 0 else st.i2xHead) with hhd
  set dt := readWords env.ring ((if st.i2xHead = env.N then 0 else st.i2xHead) + 16)
    hd.size with hdt
  by_cases hid : hd.id < ASYNC_MSG_START_ID
  · rw [if_pos hid]
    refine ⟨rfl, rfl, rfl, ?_, ?_, ?_, fun hnid _ => absurd hid hnid⟩
    · intro _ hvalid mb hfind
      rw [get_resp_found st.idr hd dt mb hvalid hfind]
      exact ⟨rfl, rfl⟩
    · intro _ hvalid hfind
      rw [get_resp_orphan st.idr hd dt hvalid hfind]
      exact ⟨rfl, rfl⟩
    · intro _ hvalid
      rw [get_resp_badmagic st.idr hd dt hvalid]
      exact ⟨rfl, rfl⟩
  · rw [if_neg hid]
    refine ⟨rfl, rfl, rfl, fun h _ => absurd h hid, fun h _ => absurd h hid,
      fun h _ => absurd h hid, ?_⟩
    intro _ hok
    rw [hok, get_async_ok st.asyncList st.asyncComp hd dt]
    exact ⟨rfl, rfl, rfl⟩

/-- Ring content for the orphan-response witness: a framed 8-byte message at
offset 0 whose id `0x1D0000AB` has valid magic but no pending entry. -/
def ringC5 : Nat → Nat := fun o =>
  if o = 0 then 8
  else if o = 4 then 8 + 2 ^ 16
  else if o = 8 then 0x1D0000AB
  else if o = 12 then 0x100
  else if o = 16 then 0xA
  else if o = 20 then 0xB
  else 0

/-- C5 witness: the orphan response `0x1D0000AB` produces one warning, no
callback, an unchanged pending map, and the head (cached and register)
advanced past the message to `0 + 16 + 8 = 24`. -/
theorem rx_advances_head_past_message_witness :
    (mailbox_get_msg ⟨32, 64, ringC5, true⟩ ⟨0, ⟨[], 0⟩, [], 0⟩).ret = 0 ∧
    (mailbox_get_msg ⟨32, 64, ringC5, true⟩ ⟨0, ⟨[], 0⟩, [], 0⟩).st.i2xHead = 24 ∧
    (mailbox_get_msg ⟨32, 64, ringC5, true⟩ ⟨0, ⟨[], 0⟩, [], 0⟩).headRegWrites = [24] ∧
    (mailbox_get_msg ⟨32, 64, ringC5, true⟩ ⟨0, ⟨[], 0⟩, [], 0⟩).events =
      [.warnOrphan 0xAB] ∧
    (mailbox_get_msg ⟨32, 64, ringC5, true⟩ ⟨0, ⟨[], 0⟩, [], 0⟩).st.idr = ⟨[], 0⟩ := by
  have h := rx_advances_head_past_message ⟨32, 64, ringC5, true⟩ ⟨0, ⟨[], 0⟩, [], 0⟩ 0
    (by decide) (by decide) (by decide) (by decide)
  have ho := h.2.2.2.2.1 (by decide) (by decide) (by decide)
  exact ⟨h.1, h.2.1.trans (by decide), h.2.2.1.trans (by decide),
    ho.1.trans (by decide), ho.2⟩

/-- C10: when the async-record allocation fails for an inbound message with
`id ≥ 0x80000000`, the message is dropped silently — no async record is
queued, the completion is not signaled, no event is emitted, the iteration
still returns 0 (so the drain loop continues) and the cached I2X head and
head register still advance past the message. -/
theorem rx_async_alloc_fail_drops (env : RxEnv) (st : RxState) (head' : Nat)
    (hh : head' = if st.i2xHead = env.N then 0 else st.i2xHead)
    (hne : ¬ st.i2xHead &&& (env.N - 1) = env.tailReg &&& (env.N - 1))
    (hnt : ¬ env.ring head' = TOMBSTONE)
    (hval : ¬ sub32 env.tailReg head' < add32 (env.ring head') 16)
    (hid : ¬ (readHeader env.ring head').id < ASYNC_MSG_START_ID)
    (halloc : env.allocOk = false) :
    mailbox_get_msg env st =
      ⟨0, { st with i2xHead := add32 head' (add32 16 (env.ring head')) },
       [add32 head' (add32 16 (env.ring head'))], [],
       [head', head' + 4, head' + 8, head' + 12]⟩ := by
  subst hh
  unfold mailbox_get_msg
  dsimp only
  rw [if_neg hne, if_neg hnt, if_neg hval, if_neg hid, halloc, get_async_nomem]

/-- Ring content for the async-drop witness: a framed 8-byte message at
offset 0 with the device-originated id `0x80000001`. -/
def ringC10 : Nat → Nat := fun o =>
  if o = 0 then 8
  else if o = 4 then 8 + 2 ^ 16
  else if o = 8 then 0x80000001
  else if o = 12 then 0x55
  else 0

/-- C10 witness: with allocation failing, the async message at offset 0 is
dropped with no event, and the head still advances to 24. -/
theorem rx_async_alloc_fail_drops_witness :
    mailbox_get_msg ⟨32, 64, ringC10, false⟩ ⟨0, ⟨[], 0⟩, [], 0⟩ =
      ⟨0, ⟨24, ⟨[], 0⟩, [], 0⟩, [24], [], [0, 4, 8, 12]⟩ :=
  (rx_async_alloc_fail_drops ⟨32, 64, ringC10, false⟩ ⟨0, ⟨[], 0⟩, [], 0⟩ 0
    (by decide) (by decide) (by decide) (by decide) (by decide) rfl).trans
    (by decide)

/-- Teardown events: per-handle count of null-cancellation callbacks matches
the records registered with a callback under that handle. -/
theorem destroy_callback_count (l : List (Nat × MailboxMsg)) (hd : Nat) :
    (l.flatMap (fun e => mailbox_release_msg e.1 e.2)).count
        (RxEvent.callback hd none 0) =
      (l.filter (fun e => e.2.hasCb && e.2.handle == hd)).length := by
  induction l with
  | nil => rfl
  | cons e t ih =>
    rw [List.flatMap_cons, List.count_append, ih, List.filter_cons]
    by_cases hcb : e.2.hasCb
    · by_cases hh : e.2.handle = hd
      · simp [mailbox_release_msg, hcb, hh, List.count_cons]
        omega
      · simp [mailbox_release_msg, hcb, hh, List.count_cons]
    · simp [mailbox_release_msg, hcb, List.count_cons]

/-- Teardown events: per-key count of frees matches the key's multiplicity
in the pending map. -/
theorem destroy_free_count (l : List (Nat × MailboxMsg)) (k : Nat) :
    (l.flatMap (fun e => mailbox_release_msg e.1 e.2)).count
        (RxEvent.freeRecord k) =
      (l.map Prod.fst).count k := by
  induction l with
  | nil => rfl
  | cons e t ih =>
    rw [List.flatMap_cons, List.count_append, ih, List.map_cons]
    by_cases hk : e.1 = k
    · by_cases hcb : e.2.hasCb <;>
        simp [mailbox_release_msg, hcb, hk, List.count_cons] <;> omega
    · by_cases hcb : e.2.hasCb <;>
        simp [mailbox_release_msg, hcb, hk, List.count_cons]

/-- Teardown events: every callback event carries the null data pointer and
size 0. -/
theorem destroy_callback_null (l : List (Nat × MailboxMsg)) (hd : Nat)
    (d : Option (List Nat)) (s : Nat)
    (hmem : RxEvent.callback hd d s ∈
      l.flatMap (fun e => mailbox_release_msg e.1 e.2)) :
    d = none ∧ s = 0 := by
  induction l with
  | nil => simp at hmem
  | cons e t ih =>
    rw [List.flatMap_cons, List.mem_append] at hmem
    rcases hmem with hmem | hmem
    · unfold mailbox_release_msg at hmem
      by_cases hcb : e.2.hasCb
      · rw [if_pos hcb] at hmem
        simp only [List.singleton_append, List.mem_cons,
          List.not_mem_nil, or_false] at hmem
        rcases hmem with heq | heq
        · injection heq with h1 h2 h3
          exact ⟨h2, h3⟩
        · simp at heq
      · rw [if_neg hcb] at hmem
        simp only [List.nil_append, List.mem_cons, List.not_mem_nil,
          or_false] at hmem
        simp at hmem
    · exact ih hmem

/-- C3: destroying a channel with pending records cancels every one before
returning: each record with a callback gets exactly one invocation with the
null data pointer and size 0, every record is freed exactly once, and the
pending map is left empty, so a later response dispatch can never fire a
callback for that channel. -/
theorem destroy_channel_cancels_pending (idr : Idr)
    (hnd : (idr.entries.map Prod.fst).Nodup) :
    (∀ hd d s, RxEvent.callback hd d s ∈ (xdna_mailbox_destroy_channel idr).1 →
      d = none ∧ s = 0) ∧
    (∀ hd, (xdna_mailbox_destroy_channel idr).1.count (RxEvent.callback hd none 0) =
      (idr.entries.filter (fun e => e.2.hasCb && e.2.handle == hd)).length) ∧
    (∀ e ∈ idr.entries,
      (xdna_mailbox_destroy_channel idr).1.count (RxEvent.freeRecord e.1) = 1) ∧
    (xdna_mailbox_destroy_channel idr).2.entries = [] ∧
    (∀ header data hd d s,
      RxEvent.callback hd d s ∈
        (mailbox_get_resp (xdna_mailbox_destroy_channel idr).2 header data).2 →
      False) := by
  unfold xdna_mailbox_destroy_channel
  dsimp only
  refine ⟨?_, ?_, ?_, rfl, ?_⟩
  · exact fun hd d s hmem => destroy_callback_null idr.entries hd d s hmem
  · exact fun hd => destroy_callback_count idr.entries hd
  · intro e he
    rw [destroy_free_count idr.entries e.1]
    exact List.count_eq_one_of_mem hnd (List.mem_map_of_mem Prod.fst he)
  · intro header data hd d s hmem
    unfold mailbox_get_resp at hmem
    by_cases hv : mailbox_validate_msgid header.id = true
    · rw [if_neg (by simp [hv])] at hmem
      simp [idrFind] at hmem
    · rw [if_pos (by simp [hv])] at hmem
      simp at hmem

/-- C3 witness: destroying a channel with two pending records (one with a
callback registered under handle 5, one without) fires that callback once
with null data, frees both records, and empties the map. -/
theorem destroy_channel_cancels_pending_witness :
    ((Idr.mk [(0, ⟨5, true, 16, ⟨0, 0, 0, 1, 0, 0, 0⟩, []⟩), (1, mbUnit)] 2).entries.map
      Prod.fst).Nodup ∧
    (xdna_mailbox_destroy_channel
      ⟨[(0, ⟨5, true, 16, ⟨0, 0, 0, 1, 0, 0, 0⟩, []⟩), (1, mbUnit)], 2⟩).1.count
        (RxEvent.callback 5 none 0) = 1 ∧
    (xdna_mailbox_destroy_channel
      ⟨[(0, ⟨5, true, 16, ⟨0, 0, 0, 1, 0, 0, 0⟩, []⟩), (1, mbUnit)], 2⟩).1.count
        (RxEvent.freeRecord 0) = 1 ∧
    (xdna_mailbox_destroy_channel
      ⟨[(0, ⟨5, true, 16, ⟨0, 0, 0, 1, 0, 0, 0⟩, []⟩), (1, mbUnit)], 2⟩).2.entries = [] := by
  have h := destroy_channel_cancels_pending
    ⟨[(0, ⟨5, true, 16, ⟨0, 0, 0, 1, 0, 0, 0⟩, []⟩), (1, mbUnit)], 2⟩ (by decide)
  refine ⟨by decide, ?_, ?_, h.2.2.2.1⟩
  · rw [h.2.1 5]
    decide
  · exact h.2.2.1 (0, ⟨5, true, 16, ⟨0, 0, 0, 1, 0, 0, 0⟩, []⟩) (by decide)
